import Mathlib

/-!
Shallow embedding of the NanoBananaClient from src/index.ts and proofs
about its specified behaviour.  Strings are modelled with Lean String,
file contents with lists of byte values, and the output directory with
an association list from file name to contents.  Provider calls are
modelled by passing the provider response as an explicit argument.
-/

namespace NanoBanana

/-- Truthiness of a JavaScript string value that may be undefined:
undefined and the empty string are falsy, every other string is truthy. -/
def truthy : Option String → Bool
  | none => false
  | some s => !(s == "")

/-- Embeds the JavaScript expression a || b on optional strings:
the left operand when it is truthy, otherwise the right operand. -/
def jsOr (a b : Option String) : Option String :=
  if truthy a then a else b

/-- Embeds path.join for the forms used by the client: joining a
directory with a plain file name.  The POSIX separator is used and the
degenerate empty-directory case collapses to the bare file name. -/
def pathJoin (dir f : String) : String :=
  if dir == "" then f else dir ++ "/" ++ f

/-- A POSIX path is absolute when its first character is the separator. -/
def isAbsolute (p : String) : Bool :=
  match p.data with
  | [] => false
  | c :: _ => c == '/'

/-- Embeds the NanoBananaConfig interface: every field optional. -/
structure NanoBananaConfig where
  apiKey : Option String := none
  openaiApiKey : Option String := none
  outputDir : Option String := none
deriving DecidableEq, Repr

/-- The slice of the process environment the constructor reads:
process.env.NanoBanana_ApiKey, process.env.OPENAI_API_KEY and the
current working directory used for the default output directory. -/
structure Env where
  nanoBananaApiKey : Option String := none
  openaiApiKey : Option String := none
  cwd : String := "/cwd"
deriving DecidableEq, Repr

/-- The resolved private config field of the client. -/
structure ClientConfig where
  apiKey : Option String
  openaiApiKey : Option String
  outputDir : String
deriving DecidableEq, Repr

/-- Embeds the constructed NanoBananaClient: resolved configuration plus
whether each provider handle (genAI, openai) was created. -/
structure NanoBananaClient where
  config : ClientConfig
  hasGenAI : Bool
  hasOpenai : Bool
deriving DecidableEq, Repr

/-- The result type of getConfig: only the output directory. -/
structure PublicConfig where
  outputDir : String
deriving DecidableEq, Repr

/-- The error message thrown by the constructor when no credential is
available. -/
def apiKeyRequiredMsg : String :=
  "API key required. Set OPENAI_API_KEY or NanoBanana_ApiKey in .env"

/-- Embeds the NanoBananaClient constructor: each key falls back from
the explicit argument to the environment with JavaScript truthiness;
construction fails when both resolved keys are falsy; provider handles
are created exactly for the truthy keys; the output directory falls
back to cwd/temp. -/
def mkClient (cfg : NanoBananaConfig) (env : Env) :
    Except String NanoBananaClient :=
  let apiKey := jsOr cfg.apiKey env.nanoBananaApiKey
  let openaiApiKey := jsOr cfg.openaiApiKey env.openaiApiKey
  if !truthy apiKey && !truthy openaiApiKey then
    .error apiKeyRequiredMsg
  else
    .ok { config :=
            { apiKey := apiKey
              openaiApiKey := openaiApiKey
              outputDir :=
                (jsOr cfg.outputDir (some (pathJoin env.cwd "temp"))).getD "" }
          hasGenAI := truthy apiKey
          hasOpenai := truthy openaiApiKey }

/-- Embeds getConfig, which exposes only the output directory. -/
def getConfig (c : NanoBananaClient) : PublicConfig :=
  { outputDir := c.config.outputDir }

/-- A credential is available when the explicit argument or the
recognized environment variable of either provider is a truthy string. -/
def credAvailable (cfg : NanoBananaConfig) (env : Env) : Prop :=
  truthy cfg.apiKey = true ∨ truthy env.nanoBananaApiKey = true ∨
  truthy cfg.openaiApiKey = true ∨ truthy env.openaiApiKey = true

theorem truthy_jsOr (a b : Option String) :
    truthy (jsOr a b) = (truthy a || truthy b) := by
  unfold jsOr
  by_cases h : truthy a = true
  · simp [h]
  · simp [Bool.not_eq_true] at h
    simp [h]

/-- Claim C3: construction fails with the configuration error exactly
when no credential is available from any provider, and succeeds exactly
when at least one credential is available. -/
theorem mkClient_spec (cfg : NanoBananaConfig) (env : Env) :
    (mkClient cfg env = .error apiKeyRequiredMsg ↔ ¬ credAvailable cfg env) ∧
    ((∃ c, mkClient cfg env = .ok c) ↔ credAvailable cfg env) := by
  rcases h1 : truthy cfg.apiKey with _ | _ <;>
    rcases h2 : truthy env.nanoBananaApiKey with _ | _ <;>
      rcases h3 : truthy cfg.openaiApiKey with _ | _ <;>
        rcases h4 : truthy env.openaiApiKey with _ | _ <;>
          simp [mkClient, credAvailable, truthy_jsOr, h1, h2, h3, h4]

/-- Concrete instance of the construction contract: a client built with
only an explicit Google key succeeds. -/
theorem mkClient_spec_witness :
    ∃ c, mkClient ⟨some "k", none, some "/out"⟩ ⟨none, none, "/cwd"⟩ =
      .ok c :=
  (mkClient_spec _ _).2.mpr (Or.inl (by decide))

/-- Claim C10: getConfig depends only on the configured output
directory, not on any credential: two clients constructed with the same
explicit output directory and the same working directory, under any
credentials, have identical getConfig results. -/
theorem getConfig_independent (cfg₁ cfg₂ : NanoBananaConfig)
    (env₁ env₂ : Env) (c₁ c₂ : NanoBananaClient)
    (hd : cfg₁.outputDir = cfg₂.outputDir) (hw : env₁.cwd = env₂.cwd)
    (h₁ : mkClient cfg₁ env₁ = .ok c₁)
    (h₂ : mkClient cfg₂ env₂ = .ok c₂) :
    getConfig c₁ = getConfig c₂ := by
  unfold mkClient at h₁ h₂
  by_cases hb₁ : (!truthy (jsOr cfg₁.apiKey env₁.nanoBananaApiKey) &&
      !truthy (jsOr cfg₁.openaiApiKey env₁.openaiApiKey)) = true
  · simp [hb₁] at h₁
  · by_cases hb₂ : (!truthy (jsOr cfg₂.apiKey env₂.nanoBananaApiKey) &&
        !truthy (jsOr cfg₂.openaiApiKey env₂.openaiApiKey)) = true
    · simp [hb₂] at h₂
    · simp only [Bool.not_eq_true] at hb₁ hb₂
      simp [hb₁, hb₂] at h₁ h₂
      rw [getConfig, getConfig, ← h₁, ← h₂]
      simp [hd, hw]

/-- Concrete instance of credential independence: a Google-only client
and an OpenAI-only client with the same output directory expose the
same public configuration. -/
theorem getConfig_independent_witness :
    ∃ c₁ c₂, mkClient ⟨some "key1", none, some "/out"⟩
        ⟨none, none, "/cwd"⟩ = .ok c₁ ∧
      mkClient ⟨none, some "sk-2", some "/out"⟩
        ⟨some "g", none, "/cwd"⟩ = .ok c₂ ∧
      getConfig c₁ = getConfig c₂ := by
  refine ⟨_, _, rfl, rfl, ?_⟩
  exact getConfig_independent ⟨some "key1", none, some "/out"⟩
    ⟨none, some "sk-2", some "/out"⟩ ⟨none, none, "/cwd"⟩
    ⟨some "g", none, "/cwd"⟩ _ _ rfl rfl rfl rfl

/-- Value of one base64 alphabet character, none for characters outside
the alphabet (padding and whitespace are skipped, as Buffer.from does). -/
def b64Val (c : Char) : Option Nat :=
  if 'A' ≤ c ∧ c ≤ 'Z' then some (c.toNat - 65)
  else if 'a' ≤ c ∧ c ≤ 'z' then some (c.toNat - 71)
  else if '0' ≤ c ∧ c ≤ '9' then some (c.toNat + 4)
  else if c = '+' then some 62
  else if c = '/' then some 63
  else none

/-- Turns a stream of 6-bit values into bytes, four values to three
bytes, with the usual truncation of an incomplete final group. -/
def decodeQuads : List Nat → List Nat
  | a :: b :: c :: d :: rest =>
      (a * 4 + b / 16) :: ((b % 16) * 16 + c / 4) :: ((c % 4) * 64 + d) ::
        decodeQuads rest
  | [a, b] => [a * 4 + b / 16]
  | [a, b, c] => [a * 4 + b / 16, (b % 16) * 16 + c / 4]
  | _ => []

/-- Embeds Buffer.from(base64Data, base64): decode the base64 payload
to a byte list. -/
def base64Decode (s : String) : List Nat :=
  decodeQuads (s.data.filterMap b64Val)

/-- Bytes of a string written as text, one value per character. -/
def strBytes (s : String) : List Nat :=
  s.data.map Char.toNat

/-- Contents of the output directory: file name paired with bytes. -/
abbrev DirState := List (String × List Nat)

/-- A single filesystem operation performed by the client. -/
inductive FsOp where
  | write (p : String) (bytes : List Nat)
  | mkdir (p : String)
  | unlink (p : String)
deriving DecidableEq, Repr

/-- Effect of fs.promises.writeFile inside the output directory: the
entry for the name is replaced, every other entry untouched. -/
def dirWrite (fs : DirState) (name : String) (bytes : List Nat) :
    DirState :=
  fs.filter (fun e => !(e.1 == name)) ++ [(name, bytes)]

/-- Generated image result, as the GeneratedImage interface. -/
structure GeneratedImage where
  data : String
  mimeType : String
  filePath : Option String := none
deriving DecidableEq, Repr

/-- One element of the DALL-E response data array; the client only
consults its b64_json field. -/
structure ImageEntry where
  b64_json : Option String := none
deriving DecidableEq, Repr

/-- The generateImage options the response handling depends on. -/
structure GenImgOptions where
  save : Bool := true
  filename : Option String := none
deriving DecidableEq, Repr

/-- File name chosen for the image at index i, from the caller-supplied
base name or the timestamp scheme. -/
def genImageFilename (opts : GenImgOptions) (now i : Nat) : String :=
  match opts.filename with
  | some f => f ++ (if i > 0 then "_" ++ toString i else "") ++ ".png"
  | none => "image_" ++ toString now ++ "_" ++ toString i ++ ".png"

def noOpenaiMsg : String :=
  "OpenAI API key required for image generation. Set OPENAI_API_KEY in .env"

def noImageDataMsg : String := "No image data returned from DALL-E"

/-- The response-unwrapping loop of generateImage: walk the data array
in order, keep the entries carrying b64_json, optionally saving each to
disk under the generated name. -/
def generateImageLoop (dir : String) (opts : GenImgOptions) (now : Nat) :
    List ImageEntry → Nat → DirState → List GeneratedImage × DirState
  | [], _, fs => ([], fs)
  | e :: rest, i, fs =>
    match e.b64_json with
    | some b64 =>
      if opts.save then
        let fn := genImageFilename opts now i
        let step := generateImageLoop dir opts now rest (i + 1)
          (dirWrite fs fn (base64Decode b64))
        (⟨b64, "image/png", some (pathJoin dir fn)⟩ :: step.1, step.2)
      else
        let step := generateImageLoop dir opts now rest (i + 1) fs
        (⟨b64, "image/png", none⟩ :: step.1, step.2)
    | none => generateImageLoop dir opts now rest (i + 1) fs

/-- Embeds generateImage: requires the OpenAI handle, errors on an
absent or empty data array, otherwise unwraps the entries in order. -/
def generateImage (c : NanoBananaClient) (opts : GenImgOptions)
    (now : Nat) (respData : Option (List ImageEntry)) (fs : DirState) :
    Except String (List GeneratedImage × DirState) :=
  if !c.hasOpenai then .error noOpenaiMsg
  else
    match respData with
    | none => .error noImageDataMsg
    | some l =>
      if l.length = 0 then .error noImageDataMsg
      else .ok (generateImageLoop c.config.outputDir opts now l 0 fs)

def noGoogleTextMsg : String := "Google API key required for text generation"

/-- Embeds generateText: requires the Google handle and returns the
text of the provider response unchanged. -/
def generateText (c : NanoBananaClient) (respText : String) :
    Except String String :=
  if !c.hasGenAI then .error noGoogleTextMsg
  else .ok respText

/-- The result record of healthCheck. -/
structure HealthResult where
  ok : Bool
  openai : Bool
  google : Bool
deriving DecidableEq, Repr

/-- Embeds healthCheck: probe each configured provider, fold a rejected
probe into false, and aggregate with a disjunction.  The probe outcomes
are passed in as explicit Except values. -/
def healthCheck (c : NanoBananaClient)
    (openaiProbe googleProbe : Except String Unit) :
    Except String HealthResult :=
  let openaiOk := if c.hasOpenai then
      (match openaiProbe with | .ok _ => true | .error _ => false)
    else false
  let googleOk := if c.hasGenAI then
      (match googleProbe with | .ok _ => true | .error _ => false)
    else false
  .ok { ok := openaiOk || googleOk, openai := openaiOk, google := googleOk }

/-- A client holding only a Google credential, built by the constructor. -/
def demoClient : NanoBananaClient :=
  match mkClient ⟨some "k", none, some "/out"⟩ ⟨none, none, "/cwd"⟩ with
  | .ok c => c
  | .error _ => ⟨⟨none, none, ""⟩, false, false⟩

/-- A client holding both credentials, built by the constructor. -/
def demoClient2 : NanoBananaClient :=
  match mkClient ⟨some "k", some "sk", some "/out"⟩ ⟨none, none, "/cwd"⟩ with
  | .ok c => c
  | .error _ => ⟨⟨none, none, ""⟩, false, false⟩

/-- Claim C1 evaluation: on a response whose single entry carries no
inline image payload, generateImage returns normally with an empty
list instead of throwing the no-media error. -/
theorem generateImage_text_only_returns_empty :
    generateImage demoClient2 ⟨false, none⟩ 0 (some [⟨none⟩]) [] =
      .ok ([], []) := rfl

/-- Claim C4 evaluation: on a provider response whose text field is
empty, generateText returns the empty string normally instead of
throwing the no-text error. -/
theorem generateText_empty_returns_empty :
    generateText demoClient "" = .ok "" := rfl

/-- Claim C2: healthCheck never raises, reports each provider true
exactly when that provider is configured and its probe resolved, and
aggregates ok as: some configured provider resolved. -/
theorem healthCheck_spec (c : NanoBananaClient)
    (op gp : Except String Unit) :
    ∃ r : HealthResult, healthCheck c op gp = .ok r ∧
      (r.openai = true ↔ (c.hasOpenai = true ∧ op.isOk = true)) ∧
      (r.google = true ↔ (c.hasGenAI = true ∧ gp.isOk = true)) ∧
      (r.ok = true ↔ ((c.hasOpenai = true ∧ op.isOk = true) ∨
        (c.hasGenAI = true ∧ gp.isOk = true))) := by
  refine ⟨_, rfl, ?_, ?_, ?_⟩ <;>
    rcases h1 : c.hasOpenai with _ | _ <;>
      rcases h2 : c.hasGenAI with _ | _ <;>
        rcases op with e | u <;> rcases gp with e' | u' <;>
          simp [healthCheck, h1, h2, Except.isOk, Except.toBool]

/-- Concrete instance of the health check contract, with an OpenAI
probe that rejects and a Google probe that resolves. -/
theorem healthCheck_spec_witness :
    ∃ r : HealthResult, healthCheck demoClient2 (.error "down") (.ok ()) =
        .ok r ∧
      (r.openai = true ↔ (demoClient2.hasOpenai = true ∧
        (Except.error "down" : Except String Unit).isOk = true)) ∧
      (r.google = true ↔ (demoClient2.hasGenAI = true ∧
        (Except.ok () : Except String Unit).isOk = true)) ∧
      (r.ok = true ↔ ((demoClient2.hasOpenai = true ∧
        (Except.error "down" : Except String Unit).isOk = true) ∨
        (demoClient2.hasGenAI = true ∧
          (Except.ok () : Except String Unit).isOk = true))) :=
  healthCheck_spec demoClient2 (.error "down") (.ok ())

/-- The unwrapped data of the loop output is exactly the b64_json
payloads present in the response, in response order. -/
theorem generateImageLoop_data (dir : String) (opts : GenImgOptions)
    (now : Nat) (l : List ImageEntry) (i : Nat) (fs : DirState) :
    (generateImageLoop dir opts now l i fs).1.map GeneratedImage.data =
      l.filterMap ImageEntry.b64_json := by
  induction l generalizing i fs with
  | nil => simp [generateImageLoop]
  | cons e rest ih =>
    rcases e with ⟨_ | b64⟩
    · simpa [generateImageLoop] using ih (i + 1) fs
    · rcases hs : opts.save with _ | _ <;>
        simp [generateImageLoop, hs, ih]

/-- Claim C6: with an OpenAI-configured client, generateImage throws
the empty-response error on an absent or empty data array, and on
success returns the produced images in provider response order: their
data fields are the b64_json payloads of the response, in order. -/
theorem generateImage_spec (c : NanoBananaClient)
    (hOA : c.hasOpenai = true) (opts : GenImgOptions) (now : Nat)
    (fs : DirState) :
    generateImage c opts now none fs = .error noImageDataMsg ∧
    generateImage c opts now (some []) fs = .error noImageDataMsg ∧
    (∀ l imgs fs', generateImage c opts now (some l) fs = .ok (imgs, fs') →
      imgs.map GeneratedImage.data = l.filterMap ImageEntry.b64_json) := by
  refine ⟨by simp [generateImage, hOA], by simp [generateImage, hOA], ?_⟩
  intro l imgs fs' h
  rcases l with _ | ⟨e, rest⟩
  · simp [generateImage, hOA] at h
  · simp only [generateImage, hOA, Bool.not_true, Bool.false_eq_true,
      if_false, List.length_cons, Nat.succ_ne_zero, if_neg] at h
    have h' := Except.ok.inj h
    have h1 : imgs = (generateImageLoop c.config.outputDir opts now
        (e :: rest) 0 fs).1 := by rw [h']
    rw [h1]
    exact generateImageLoop_data _ _ _ _ _ _

/-- Concrete instance of the generateImage contract on a client with
both credentials and a three-entry response with one gap. -/
theorem generateImage_spec_witness :
    generateImage demoClient2 ⟨false, none⟩ 7 none [] =
        .error noImageDataMsg ∧
      (generateImageLoop demoClient2.config.outputDir ⟨false, none⟩ 7
          [⟨some "a"⟩, ⟨none⟩, ⟨some "b"⟩] 0 []).1.map
        GeneratedImage.data = ["a", "b"] := by
  constructor
  · exact (generateImage_spec demoClient2 (by decide) ⟨false, none⟩ 7 []).1
  · have h := (generateImage_spec demoClient2 (by decide) ⟨false, none⟩ 7
      []).2.2 [⟨some "a"⟩, ⟨none⟩, ⟨some "b"⟩] _ _ rfl
    exact h.trans (by decide)

/-- The characters of the opening tag literal of the SVG pattern. -/
def openTag : List Char := "<svg".data

/-- The characters of the closing tag literal of the SVG pattern. -/
def closeTag : List Char := "</svg>".data

/-- Case-insensitive test that pat occurs in cs starting at index i:
the slice of cs at i of the length of pat, lowercased, is pat.  The
pattern literals are lowercase, matching the i flag of the regex. -/
def matchesAt (pat cs : List Char) (i : Nat) : Bool :=
  ((cs.drop i).take pat.length).map Char.toLower == pat

/-- Index of the first hit of p among i, i+1, ... within fuel steps. -/
def firstMatchFrom (p : Nat → Bool) : Nat → Nat → Option Nat
  | _, 0 => none
  | i, fuel + 1 => if p i then some i else firstMatchFrom p (i + 1) fuel

/-- Index of the last hit of p among n-1, n-2, ..., 0. -/
def lastMatchDown (p : Nat → Bool) : Nat → Option Nat
  | 0 => none
  | m + 1 => if p m then some m else lastMatchDown p m

/-- Embeds text.match with the pattern: open tag, any characters, close
tag, case-insensitive.  A JavaScript regex match is leftmost with a
greedy middle, so the match starts at the least index carrying the open
tag that is followed, at distance at least the open tag length, by a
close tag, and ends at the end of the last close tag of the text.  When
the overall last close tag is at j, an open tag at i is feasible
exactly when i + 4 is at most j, so the least feasible open tag, when
one exists, is the least open tag overall; this lets the match be
computed from the first open tag and the last close tag alone. -/
def svgMatch (s : String) : Option String :=
  let cs := s.data
  match firstMatchFrom (matchesAt openTag cs) 0 cs.length,
      lastMatchDown (matchesAt closeTag cs) cs.length with
  | some i, some j =>
    if i + 4 ≤ j then some (String.mk ((cs.drop i).take (j + 6 - i)))
    else none
  | some _, none => none
  | none, _ => none

def noGoogleSvgMsg : String := "Google API key required for SVG generation"

def svgFailMsg : String := "Failed to generate SVG"

/-- The generateSvg options the response handling depends on. -/
structure SvgOptions where
  save : Bool := true
  filename : Option String := none
deriving DecidableEq, Repr

/-- Embeds generateSvg: requires the Google handle, extracts the SVG
fragment from the provider text via the pattern match, errors when
there is no match, and optionally persists the fragment. -/
def generateSvg (c : NanoBananaClient) (opts : SvgOptions) (now : Nat)
    (respText : String) (fs : DirState) :
    Except String (GeneratedImage × DirState) :=
  if !c.hasGenAI then .error noGoogleSvgMsg
  else
    match svgMatch respText with
    | none => .error svgFailMsg
    | some m =>
      if opts.save then
        let fn := match opts.filename with
          | some f => f ++ ".svg"
          | none => "svg_" ++ toString now ++ ".svg"
        .ok (⟨m, "image/svg+xml", some (pathJoin c.config.outputDir fn)⟩,
          dirWrite fs fn (strBytes m))
      else .ok (⟨m, "image/svg+xml", none⟩, fs)

/-- The tag given by pat occurs, case-insensitively, at index i of t. -/
def tagAt (pat t : String) (i : Nat) : Prop :=
  ∃ pre post : List Char,
    t.data.map Char.toLower = pre ++ pat.data ++ post ∧ pre.length = i

theorem firstMatchFrom_eq_some (p : Nat → Bool) (fuel : Nat) :
    ∀ i j, (firstMatchFrom p i fuel = some j ↔
      (i ≤ j ∧ j < i + fuel ∧ p j = true ∧
        ∀ k, i ≤ k → k < j → p k = false)) := by
  induction fuel with
  | zero =>
    intro i j
    simp only [firstMatchFrom]
    constructor
    · intro h; cases h
    · rintro ⟨h1, h2, -⟩; omega
  | succ fuel ih =>
    intro i j
    simp only [firstMatchFrom]
    by_cases hp : p i = true
    · rw [if_pos hp]
      constructor
      · rintro ⟨rfl⟩
        exact ⟨Nat.le_refl i, by omega, hp, fun k hk1 hk2 => by omega⟩
      · rintro ⟨h1, h2, hj, hmin⟩
        rcases Nat.lt_or_ge i j with hlt | hge
        · exact absurd hp (by simp [hmin i (Nat.le_refl i) hlt])
        · have : i = j := by omega
          rw [this]
    · rw [if_neg hp]
      rw [ih (i + 1) j]
      have hpi : p i = false := by
        cases h : p i
        · rfl
        · exact absurd h hp
      constructor
      · rintro ⟨h1, h2, hj, hmin⟩
        refine ⟨by omega, by omega, hj, fun k hk1 hk2 => ?_⟩
        rcases Nat.lt_or_ge k (i + 1) with hk | hk
        · have : k = i := by omega
          rw [this]; exact hpi
        · exact hmin k hk hk2
      · rintro ⟨h1, h2, hj, hmin⟩
        have hne : j ≠ i := by
          intro he; rw [he] at hj; rw [hpi] at hj; cases hj
        refine ⟨by omega, by omega, hj, fun k hk1 hk2 => hmin k (by omega) hk2⟩

theorem lastMatchDown_eq_some (p : Nat → Bool) (n : Nat) :
    ∀ j, (lastMatchDown p n = some j ↔
      (j < n ∧ p j = true ∧ ∀ k, j < k → k < n → p k = false)) := by
  induction n with
  | zero =>
    intro j
    simp only [lastMatchDown]
    constructor
    · intro h; cases h
    · rintro ⟨h1, -⟩; omega
  | succ m ih =>
    intro j
    simp only [lastMatchDown]
    by_cases hp : p m = true
    · rw [if_pos hp]
      constructor
      · rintro ⟨rfl⟩
        exact ⟨by omega, hp, fun k hk1 hk2 => by omega⟩
      · rintro ⟨h1, hj, hmax⟩
        rcases Nat.lt_or_ge j m with hlt | hge
        · exact absurd hp (by simp [hmax m hlt (by omega)])
        · have : j = m := by omega
          rw [this]
    · rw [if_neg hp]
      rw [ih j]
      have hpm : p m = false := by
        cases h : p m
        · rfl
        · exact absurd h hp
      constructor
      · rintro ⟨h1, hj, hmax⟩
        refine ⟨by omega, hj, fun k hk1 hk2 => ?_⟩
        rcases Nat.lt_or_ge k m with hk | hk
        · exact hmax k hk1 hk
        · have : k = m := by omega
          rw [this]; exact hpm
      · rintro ⟨h1, hj, hmax⟩
        have hne : j ≠ m := by
          intro he; rw [he] at hj; rw [hpm] at hj; cases hj
        exact ⟨by omega, hj, fun k hk1 hk2 => hmax k hk1 (by omega)⟩

theorem matchesAt_iff (pat cs : List Char) (i : Nat) (hp : pat ≠ []) :
    matchesAt pat cs i = true ↔
      ∃ pre post, cs.map Char.toLower = pre ++ pat ++ post ∧
        pre.length = i := by
  unfold matchesAt
  rw [beq_iff_eq, List.map_take, List.map_drop]
  constructor
  · intro h
    have hlen : (((cs.map Char.toLower).drop i).take pat.length).length =
        pat.length := by rw [h]
    rw [List.length_take, List.length_drop] at hlen
    have hple : pat.length ≤ (cs.map Char.toLower).length - i := by omega
    have hppos : 0 < pat.length := List.length_pos.mpr hp
    have hi : i ≤ (cs.map Char.toLower).length := by omega
    refine ⟨(cs.map Char.toLower).take i,
      (cs.map Char.toLower).drop (i + pat.length), ?_, ?_⟩
    · conv_lhs => rw [← List.take_append_drop i (cs.map Char.toLower)]
      rw [List.append_assoc]
      congr 1
      conv_lhs =>
        rw [← List.take_append_drop pat.length
          ((cs.map Char.toLower).drop i)]
      rw [h, List.drop_drop]
    · rw [List.length_take]
      omega
  · rintro ⟨pre, post, heq, hlen⟩
    rw [heq, ← hlen, List.append_assoc, List.drop_left, List.take_left]

theorem tagAt_iff (pat t : String) (i : Nat) (hp : pat.data ≠ []) :
    tagAt pat t i ↔ matchesAt pat.data t.data i = true :=
  (matchesAt_iff pat.data t.data i hp).symm

/-- The position of a tag occurrence is bounded by the text length. -/
theorem tagAt_lt_length (pat t : String) (i : Nat)
    (h : tagAt pat t i) : i + pat.data.length ≤ t.data.length := by
  obtain ⟨pre, post, heq, hlen⟩ := h
  have := congrArg List.length heq
  rw [List.length_map, List.length_append, List.length_append] at this
  omega

/-- Claim C5, counterexample to the first-closing-tag reading: on a
text holding two SVG fragments the match is greedy, so the returned
data runs through the last closing tag, not the first one. -/
theorem generateSvg_greedy_counterexample :
    generateSvg demoClient ⟨false, none⟩ 0 "<svg>a</svg>b<svg>c</svg>" [] =
        .ok (⟨"<svg>a</svg>b<svg>c</svg>", "image/svg+xml", none⟩, []) ∧
      "<svg>a</svg>b<svg>c</svg>" ≠ "<svg>a</svg>" := by
  exact ⟨rfl, by decide⟩

/-- Claim C5 as amended: for a Google-configured client, when the text
has a first (case-insensitive) open tag at i and a last close tag at j
with i + 4 at most j, generateSvg returns an image whose data is the
slice of the text from i through the end of that close tag and whose
MIME type is image/svg+xml; when no open tag is followed at distance at
least 4 by a close tag, generateSvg throws the no-SVG error. -/
theorem generateSvg_spec (c : NanoBananaClient) (t : String)
    (fs : DirState) (hg : c.hasGenAI = true) :
    (∀ opts now i j, tagAt "<svg" t i →
      (∀ i', i' < i → ¬ tagAt "<svg" t i') →
      tagAt "</svg>" t j →
      (∀ j', j < j' → ¬ tagAt "</svg>" t j') →
      i + 4 ≤ j →
      ∃ img fs', generateSvg c opts now t fs = .ok (img, fs') ∧
        img.data = String.mk ((t.data.drop i).take (j + 6 - i)) ∧
        img.mimeType = "image/svg+xml") ∧
    ((¬ ∃ i j, tagAt "<svg" t i ∧ tagAt "</svg>" t j ∧ i + 4 ≤ j) →
      ∀ opts now, generateSvg c opts now t fs = .error svgFailMsg) := by
  have hop : ("<svg" : String).data ≠ [] := by decide
  have hcl : ("</svg>" : String).data ≠ [] := by decide
  constructor
  · intro opts now i j h1 h2 h3 h4 h5
    have hoi : matchesAt openTag t.data i = true := (tagAt_iff _ _ _ hop).mp h1
    have hcj : matchesAt closeTag t.data j = true :=
      (tagAt_iff _ _ _ hcl).mp h3
    have hibnd := tagAt_lt_length _ _ _ h1
    have hjbnd := tagAt_lt_length _ _ _ h3
    have h4l : ("<svg" : String).data.length = 4 := by decide
    have h6l : ("</svg>" : String).data.length = 6 := by decide
    rw [h4l] at hibnd
    rw [h6l] at hjbnd
    have hfirst : firstMatchFrom (matchesAt openTag t.data) 0
        t.data.length = some i := by
      rw [firstMatchFrom_eq_some]
      refine ⟨Nat.zero_le i, by omega, hoi, ?_⟩
      intro k _ hki
      cases hmk : matchesAt openTag t.data k
      · rfl
      · exact absurd ((tagAt_iff "<svg" t k hop).mpr hmk) (h2 k hki)
    have hlast : lastMatchDown (matchesAt closeTag t.data)
        t.data.length = some j := by
      rw [lastMatchDown_eq_some]
      refine ⟨by omega, hcj, ?_⟩
      intro k hjk hk
      cases hmk : matchesAt closeTag t.data k
      · rfl
      · exact absurd ((tagAt_iff "</svg>" t k hcl).mpr hmk) (h4 k hjk)
    have hm : svgMatch t = some (String.mk ((t.data.drop i).take
        (j + 6 - i))) := by
      simp only [svgMatch]
      rw [hfirst, hlast]
      exact if_pos h5
    rcases hs : opts.save
    · exact ⟨_, _, by rw [generateSvg, hg, hm, hs]; rfl, rfl, rfl⟩
    · exact ⟨_, _, by rw [generateSvg, hg, hm, hs]; rfl, rfl, rfl⟩
  · intro hno opts now
    have hm : svgMatch t = none := by
      simp only [svgMatch]
      rcases hf : firstMatchFrom (matchesAt openTag t.data) 0
          t.data.length with _ | i
      · rfl
      · rcases hl : lastMatchDown (matchesAt closeTag t.data)
            t.data.length with _ | j
        · rfl
        · rw [firstMatchFrom_eq_some] at hf
          rw [lastMatchDown_eq_some] at hl
          by_cases hij : i + 4 ≤ j
          · exfalso
            exact hno ⟨i, j, (tagAt_iff "<svg" t i hop).mpr hf.2.2.1,
              (tagAt_iff "</svg>" t j hcl).mpr hl.2.1, hij⟩
          · exact if_neg hij
    rw [generateSvg, hg, hm]
    rfl

/-- Concrete instance of the amended generateSvg contract, on a text
holding exactly one SVG fragment. -/
theorem generateSvg_spec_witness :
    ∃ img fs', generateSvg demoClient ⟨false, none⟩ 0 "<svg>a</svg>" [] =
        .ok (img, fs') ∧
      img.data = String.mk (((("<svg>a</svg>" : String)).data.drop 0).take
        (6 + 6 - 0)) ∧
      img.mimeType = "image/svg+xml" := by
  refine (generateSvg_spec demoClient "<svg>a</svg>" [] (by decide)).1
    ⟨false, none⟩ 0 0 6 ?_ ?_ ?_ ?_ (by omega)
  · exact ⟨[], (">a</svg>" : String).data, by decide, rfl⟩
  · intro i' hi'
    exact absurd hi' (Nat.not_lt_zero i')
  · exact ⟨("<svg>a" : String).data, [], by decide, by decide⟩
  · rintro j' hj' ⟨pre, post, heq, hlen⟩
    have hL := congrArg List.length heq
    rw [List.length_map, List.length_append, List.length_append] at hL
    have h12 : ("<svg>a</svg>" : String).data.length = 12 := by decide
    have h6 : ("</svg>" : String).data.length = 6 := by decide
    omega

/-- Dotted extension literals tested by the image regex of
listSavedImages, lowercased as the i flag demands. -/
def imageExtsL : List (List Char) :=
  [".png".data, ".jpg".data, ".jpeg".data, ".gif".data, ".webp".data,
    ".svg".data]

/-- Embeds the regex test: the file name, lowercased, ends in a dot
followed by one of the six image extensions. -/
def imageExtTest (f : String) : Bool :=
  imageExtsL.any (fun e => e.isSuffixOf (f.data.map Char.toLower))

/-- The specification reading: the extension of the file name, that is
the suffix after the last dot, is case-insensitively one of png, jpg,
jpeg, gif, webp, svg. -/
def specIsImageName (f : String) : Prop :=
  ∃ pre suf : List Char, f.data.map Char.toLower = pre ++ '.' :: suf ∧
    '.' ∉ suf ∧
    suf ∈ ["png".data, "jpg".data, "jpeg".data, "gif".data, "webp".data,
      "svg".data]

/-- Embeds listSavedImages: read the directory, keep the names passing
the image-extension test, return them joined to the output directory. -/
def listSavedImages (c : NanoBananaClient) (fs : DirState) : List String :=
  ((fs.map Prod.fst).filter imageExtTest).map (pathJoin c.config.outputDir)

/-- Embeds clearSavedImages: unlink each path returned by
listSavedImages, then return how many there were.  Unlinking a full
path removes the directory entry whose joined name is that path. -/
def clearSavedImages (c : NanoBananaClient) (fs : DirState) :
    Nat × DirState :=
  let images := listSavedImages c fs
  (images.length,
    images.foldl (fun acc p =>
      acc.filter (fun e => !(pathJoin c.config.outputDir e.1 == p))) fs)

/-- Embeds saveImage: decode the base64 payload, write it under the
file name inside the output directory, return the joined path.  The
third component records the filesystem operations performed. -/
def saveImage (c : NanoBananaClient) (b64 fn : String) (fs : DirState) :
    String × DirState × List FsOp :=
  let p := pathJoin c.config.outputDir fn
  (p, dirWrite fs fn (base64Decode b64),
    [FsOp.write p (base64Decode b64)])

theorem imageExtTest_iff (f : String) :
    imageExtTest f = true ↔ specIsImageName f := by
  unfold imageExtTest specIsImageName
  rw [List.any_eq_true]
  constructor
  · rintro ⟨e, hmem, hsuf⟩
    rw [List.isSuffixOf_iff_suffix] at hsuf
    obtain ⟨pre, hpre⟩ := hsuf
    simp only [imageExtsL, List.mem_cons, List.not_mem_nil, or_false] at hmem
    rcases hmem with rfl | rfl | rfl | rfl | rfl | rfl
    · exact ⟨pre, ("png" : String).data, by rw [← hpre], by decide,
        by simp⟩
    · exact ⟨pre, ("jpg" : String).data, by rw [← hpre], by decide,
        by simp⟩
    · exact ⟨pre, ("jpeg" : String).data, by rw [← hpre], by decide,
        by simp⟩
    · exact ⟨pre, ("gif" : String).data, by rw [← hpre], by decide,
        by simp⟩
    · exact ⟨pre, ("webp" : String).data, by rw [← hpre], by decide,
        by simp⟩
    · exact ⟨pre, ("svg" : String).data, by rw [← hpre], by decide,
        by simp⟩
  · rintro ⟨pre, suf, heq, hdot, hmem⟩
    refine ⟨'.' :: suf, ?_, ?_⟩
    · simp only [List.mem_cons, List.not_mem_nil, or_false] at hmem
      rcases hmem with rfl | rfl | rfl | rfl | rfl | rfl <;>
        simp [imageExtsL]
    · rw [List.isSuffixOf_iff_suffix]
      exact ⟨pre, heq.symm⟩

/-- Claim C8: listSavedImages returns exactly the joined paths of the
entries whose extension after the last dot is, case-insensitively, one
of the six image extensions; in particular, on a directory holding
a.png, b.jpg and c.txt it returns the first two paths only. -/
theorem listSavedImages_spec :
    (∀ (c : NanoBananaClient) (fs : DirState) (p : String),
      p ∈ listSavedImages c fs ↔
        ∃ f, f ∈ fs.map Prod.fst ∧ specIsImageName f ∧
          p = pathJoin c.config.outputDir f) ∧
    listSavedImages demoClient [("a.png", []), ("b.jpg", []), ("c.txt", [])]
      = ["/out/a.png", "/out/b.jpg"] := by
  constructor
  · intro c fs p
    simp only [listSavedImages, List.mem_map, List.mem_filter]
    constructor
    · rintro ⟨f, ⟨hf, ht⟩, rfl⟩
      exact ⟨f, hf, (imageExtTest_iff f).mp ht, rfl⟩
    · rintro ⟨f, hf, hs, rfl⟩
      exact ⟨f, ⟨hf, (imageExtTest_iff f).mpr hs⟩, rfl⟩
  · decide

theorem pathJoin_inj (d a b : String) (h : pathJoin d a = pathJoin d b) :
    a = b := by
  unfold pathJoin at h
  cases hd : d == ""
  · simp only [hd, Bool.false_eq_true, if_false] at h
    have h2 := congrArg String.data h
    rw [String.data_append, String.data_append, String.data_append,
      String.data_append] at h2
    exact String.ext (List.append_cancel_left h2)
  · simpa only [hd, if_true] using h

theorem foldl_unlink (d : String) (ps : List String) (fs : DirState) :
    ps.foldl (fun acc p =>
        acc.filter (fun e => !(pathJoin d e.1 == p))) fs =
      fs.filter (fun e => !(ps.contains (pathJoin d e.1))) := by
  induction ps generalizing fs with
  | nil => simp
  | cons p ps ih =>
    rw [List.foldl_cons, ih, List.filter_filter]
    have hpred : ∀ e : String × List Nat,
        ((!(ps.contains (pathJoin d e.1))) &&
          (!(pathJoin d e.1 == p))) =
        (!((p :: ps).contains (pathJoin d e.1))) := by
      intro e
      show _ = !((pathJoin d e.1 == p) || ps.contains (pathJoin d e.1))
      cases h1 : pathJoin d e.1 == p <;>
        cases h2 : ps.contains (pathJoin d e.1) <;> simp [h1, h2]
    exact List.filter_congr (fun e _ => hpred e)

/-- Claim C7: clearSavedImages returns the number of entries whose name
passes the image-extension test and leaves the directory holding
exactly the entries that do not pass it, so every listed image file is
deleted and every other file is untouched. -/
theorem clearSavedImages_spec (c : NanoBananaClient) (fs : DirState) :
    (clearSavedImages c fs).1 = (listSavedImages c fs).length ∧
    (clearSavedImages c fs).1 =
        ((fs.map Prod.fst).filter imageExtTest).length ∧
    (clearSavedImages c fs).2 =
        fs.filter (fun e => !(imageExtTest e.1)) := by
  refine ⟨rfl, by simp [clearSavedImages, listSavedImages], ?_⟩
  show (listSavedImages c fs).foldl _ fs = _
  rw [foldl_unlink]
  apply List.filter_congr
  intro e he
  congr 1
  cases hx : imageExtTest e.1
  · cases hc : (listSavedImages c fs).contains (pathJoin c.config.outputDir e.1)
    · rfl
    · exfalso
      have hmem := List.elem_iff.mp hc
      rw [listSavedImages, List.mem_map] at hmem
      obtain ⟨f, hf, hjoin⟩ := hmem
      rw [List.mem_filter] at hf
      have hfe : f = e.1 := pathJoin_inj _ _ _ hjoin
      rw [hfe] at hf
      rw [hf.2] at hx
      cases hx
  · refine List.elem_iff.mpr ?_
    rw [listSavedImages, List.mem_map]
    refine ⟨e.1, ?_, rfl⟩
    rw [List.mem_filter]
    exact ⟨List.mem_map_of_mem Prod.fst he, hx⟩

theorem isAbsolute_pathJoin (d f : String) (h : isAbsolute d = true) :
    isAbsolute (pathJoin d f) = true := by
  unfold isAbsolute at h
  rcases hd : d.data with _ | ⟨ch, rest⟩
  · rw [hd] at h
    cases h
  · rw [hd] at h
    have hdne : (d == "") = false := by
      cases hq : d == ""
      · rfl
      · have hde : d = "" := beq_iff_eq.mp hq
        rw [hde] at hd
        exact List.noConfusion hd
    unfold pathJoin isAbsolute
    rw [hdne]
    simp only [Bool.false_eq_true, if_false, String.data_append, hd,
      List.cons_append]
    exact h

/-- Claim C9, counterexample to the absolute-path reading: a client
constructed with a relative output directory makes saveImage return a
relative path. -/
theorem saveImage_relative_path_counterexample :
    ∃ c, mkClient ⟨some "k", none, some "temp"⟩ ⟨none, none, "/cwd"⟩ =
        .ok c ∧
      (saveImage c "AA==" "a.png" []).1 = "temp/a.png" ∧
      isAbsolute (saveImage c "AA==" "a.png" []).1 = false :=
  ⟨_, rfl, rfl, rfl⟩

/-- Claim C9 as amended: saveImage writes the base64-decoded bytes to
the entry for the file name inside the output directory, performs a
single write and no directory creation, and returns the joined path
outputDir/filename, which is absolute whenever the output directory
is absolute. -/
theorem saveImage_spec (c : NanoBananaClient) (b64 fn : String)
    (fs : DirState) :
    (saveImage c b64 fn fs).1 = pathJoin c.config.outputDir fn ∧
    (saveImage c b64 fn fs).2.1 = dirWrite fs fn (base64Decode b64) ∧
    (saveImage c b64 fn fs).2.2 =
      [FsOp.write (pathJoin c.config.outputDir fn) (base64Decode b64)] ∧
    (∀ q, FsOp.mkdir q ∉ (saveImage c b64 fn fs).2.2) ∧
    (isAbsolute c.config.outputDir = true →
      isAbsolute (saveImage c b64 fn fs).1 = true) := by
  refine ⟨rfl, rfl, rfl, ?_, ?_⟩
  · intro q hq
    simp [saveImage] at hq
  · intro h
    exact isAbsolute_pathJoin _ _ h

/-- Concrete instance of the amended saveImage contract on a client
with an absolute output directory. -/
theorem saveImage_spec_witness :
    (saveImage demoClient "AA==" "x.png" []).1 = pathJoin "/out" "x.png" ∧
    isAbsolute (saveImage demoClient "AA==" "x.png" []).1 = true := by
  constructor
  · exact (saveImage_spec demoClient "AA==" "x.png" []).1
  · exact (saveImage_spec demoClient "AA==" "x.png" []).2.2.2.2 (by decide)

end NanoBanana
